import Mathlib

/-!
# Verification of azureenergylabelerlib (entities.py)

A shallow embedding of the classification and aggregation core of
`azureenergylabelerlib` (files `entities.py` and `datamodels.py`), together
with theorems settling the specification claims about it.

Modelling conventions:

* The findings dataframe (built by `Tenant.get_labeled_targeted_subscriptions`
  as `pd.DataFrame([finding.measurement_data for finding in ...])`) is a list
  of `FindingRow` records.  `Finding.measurement_data` always produces the
  three keys `Subscription ID`, `Resource Group Name` and `Severity`, so the
  dataframe has those columns exactly when the list is non-empty; an empty
  list yields a dataframe with no columns, and a column selection on it
  raises `KeyError`.  This is the only way the library itself builds the
  frame, so `rows = []` models the `KeyError` path of the classifiers.
* Python exceptions are modelled by the `PyErr` type and fallible operations
  return `Except PyErr _`.
* Python's float true division in the aggregator percentage test is modelled
  as exact rational arithmetic over `ℚ`.
* Mutable attributes (`self.energy_label`) are passed explicitly: the
  `prev` argument is the value the attribute holds on entry (`none` for a
  freshly constructed object, on which reading the attribute raises
  `AttributeError`).
-/

/-- Python exceptions that the embedded operations can raise. -/
inductive PyErr where
  | attributeError : PyErr
  | typeError : PyErr
  | zeroDivisionError : PyErr
  | valueError : PyErr
  | subscriptionNotPartOfTenant : PyErr
  | mutuallyExclusiveArguments : PyErr
deriving DecidableEq, Repr

/-- One row of the findings dataframe, i.e. `Finding.measurement_data`
(entities.py lines 584-591): the columns `Subscription ID`,
`Resource Group Name` and `Severity`. -/
structure FindingRow where
  subscriptionId : String
  resourceGroupName : String
  severity : String
deriving DecidableEq, Repr

/-- A rule of a threshold table, as consumed by the classifier loops
(entities.py lines 382-397 and 454-469): a dict with keys `label`, `high`,
`medium`, `low`.  The ceilings are Python ints, modelled as `Int`. -/
structure ThresholdRule where
  label : String
  high : Int
  medium : Int
  low : Int
deriving DecidableEq, Repr

/-- The per-entity energy label record.  `labels.py` is not under `src/`;
modelled from the spec §3: `EnergyLabel` is
`{label, highCount, mediumCount, lowCount}`, which matches the constructor
calls `SubscriptionEnergyLabel(label, high, medium, low)` /
`ResourceGroupEnergyLabel(label, high, medium, low)` in entities.py. -/
structure EnergyLabel where
  label : String
  numberOfHighFindings : Nat
  numberOfMediumFindings : Nat
  numberOfLowFindings : Nat
deriving DecidableEq, Repr

/-- The condition of the classifier loops (entities.py lines 383-385 and
455-457): `all([high <= threshold['high'], medium <= threshold['medium'],
low <= threshold['low']])`. -/
def thMatches (nHigh nMedium nLow : Nat) (t : ThresholdRule) : Prop :=
  (nHigh : Int) ≤ t.high ∧ (nMedium : Int) ≤ t.medium ∧ (nLow : Int) ≤ t.low

instance (nHigh nMedium nLow : Nat) (t : ThresholdRule) :
    Decidable (thMatches nHigh nMedium nLow t) := by
  unfold thMatches; infer_instance

/-- The classifier `for threshold in thresholds:` loop (entities.py lines
382-397, identically 454-469): `cur` is the value of `self.energy_label`
when the loop is entered.  On a match the matching rule's label with the
observed counts is stored and the loop breaks; otherwise the fallback
`F` label is stored and iteration continues; when the list is exhausted the
attribute keeps its last value. -/
def thresholdLoop (nHigh nMedium nLow : Nat) (cur : Option EnergyLabel) :
    List ThresholdRule → Option EnergyLabel
  | [] => cur
  | t :: ts =>
    if thMatches nHigh nMedium nLow t then
      some ⟨t.label, nHigh, nMedium, nLow⟩
    else
      thresholdLoop nHigh nMedium nLow (some ⟨"F", nHigh, nMedium, nLow⟩) ts

/-- `df[(df['Subscription ID'] == self.subscription_id)]`
(entities.py line 366). -/
def subscriptionOpenFindings (subscriptionId : String) (rows : List FindingRow) :
    List FindingRow :=
  rows.filter (fun r => r.subscriptionId == subscriptionId)

/-- Python's `str.lower()`: lower-case each character.  Equal to
`String.toLower` (which maps `Char.toLower` over the string via the
well-founded `String.mapAux`); written as a map over the character data so
that it evaluates by kernel reduction. -/
def pyLower (s : String) : String :=
  ⟨s.data.map Char.toLower⟩

/-- `df[(df['Resource Group Name'] == self.name.lower())]`
(entities.py line 438). -/
def resourceGroupOpenFindings (name : String) (rows : List FindingRow) :
    List FindingRow :=
  rows.filter (fun r => r.resourceGroupName == pyLower name)

/-- `open_findings[open_findings['Severity'] == sev].shape[0]`
(entities.py lines 372-374 and 444-446). -/
def severityCount (sev : String) (rows : List FindingRow) : Nat :=
  (rows.filter (fun r => r.severity == sev)).length

/-- `Subscription.get_energy_label` (entities.py lines 352-401).
`prev` is the value of `self.energy_label` on entry (`none` for a fresh
object).  An empty `rows` list is a dataframe without columns, so the
column selection raises `KeyError` and the `A, 0, 0, 0` label is returned
(lines 366-370).  Otherwise the severity counts are computed and the
threshold loop runs; after it, `return self.energy_label` (line 401) raises
`AttributeError` when the attribute was never assigned (empty threshold
table on a fresh object).  Note that the `except Exception` handler
(lines 398-400) only logs and assigns nothing. -/
def subscriptionGetEnergyLabel (prev : Option EnergyLabel) (subscriptionId : String)
    (rows : List FindingRow) (thresholds : List ThresholdRule) :
    Except PyErr EnergyLabel :=
  if rows.isEmpty then .ok ⟨"A", 0, 0, 0⟩
  else
    let openFindings := subscriptionOpenFindings subscriptionId rows
    let numberOfHighFindings := severityCount "High" openFindings
    let numberOfMediumFindings := severityCount "Medium" openFindings
    let numberOfLowFindings := severityCount "Low" openFindings
    match thresholdLoop numberOfHighFindings numberOfMediumFindings
        numberOfLowFindings prev thresholds with
    | some el => .ok el
    | none => .error .attributeError

/-- `ResourceGroup.get_energy_label` (entities.py lines 424-473): identical
to the subscription classifier except that rows are matched by
`df['Resource Group Name'] == self.name.lower()`. -/
def resourceGroupGetEnergyLabel (prev : Option EnergyLabel) (name : String)
    (rows : List FindingRow) (thresholds : List ThresholdRule) :
    Except PyErr EnergyLabel :=
  if rows.isEmpty then .ok ⟨"A", 0, 0, 0⟩
  else
    let openFindings := resourceGroupOpenFindings name rows
    let numberOfHighFindings := severityCount "High" openFindings
    let numberOfMediumFindings := severityCount "Medium" openFindings
    let numberOfLowFindings := severityCount "Low" openFindings
    match thresholdLoop numberOfHighFindings numberOfMediumFindings
        numberOfLowFindings prev thresholds with
    | some el => .ok el
    | none => .error .attributeError

/-- A rule of the tenant aggregation threshold table, as consumed by
`Tenant.get_energy_label_of_targeted_subscriptions` (entities.py lines
266-273): a dict with keys `label` and `percentage`.  Python's float
division is modelled exactly, so the percentage is a rational. -/
structure AggregationRule where
  label : String
  percentage : ℚ
deriving DecidableEq, Repr

/-- `label_counter.get(label, 0)` where
`label_counter = Counter([s.energy_label.label for s in labeled_subscriptions])`
(entities.py lines 261 and 270). -/
def labelCounterGet (labels : List String) (l : String) : Nat :=
  labels.count l

/-- The aggregate label record `AggregateSubscriptionEnergyLabel(label,
min(label_counter.keys()), max(label_counter.keys()), number_of_subscriptions)`
(entities.py lines 275-285).  `labels.py` is not under `src/`; modelled from
the spec §3: `AggregateEnergyLabel` is
`{label, bestLabelSeen, worstLabelSeen, populationSize}`. -/
structure AggregateSubscriptionEnergyLabel where
  label : String
  bestLabel : String
  worstLabel : String
  numberOfSubscriptions : Nat
deriving DecidableEq, Repr

/-- Python's `min` over the counter's keys (lexicographic string comparison
by code point, modelled on the character data; ties keep the first operand,
and duplicate labels are irrelevant for a minimum, so the raw label list is
scanned); `min()` of no keys raises `ValueError`, modelled as `none`. -/
def minKey : List String → Option String
  | [] => none
  | x :: xs => some (xs.foldl (fun a b => if b.data < a.data then b else a) x)

/-- Python's `max` over the counter's keys; see `minKey`. -/
def maxKey : List String → Option String
  | [] => none
  | x :: xs => some (xs.foldl (fun a b => if a.data < b.data then b else a) x)

/-- The `for threshold in self.thresholds:` loop of
`Tenant.get_energy_label_of_targeted_subscriptions` (entities.py lines
266-279): `accSum` is `sum(subscription_sums)` over the rules already
processed.  Each iteration appends `label_counter.get(label, 0)` and tests
`sum(subscription_sums) / number_of_subscriptions * 100 >= percentage`;
the division raises `ZeroDivisionError` when the population is empty.
Returns the matched rule's label, or `none` on normal exhaustion (the
`for`/`else` branch). -/
def aggLoop (labels : List String) (accSum : Nat) :
    List AggregationRule → Except PyErr (Option String)
  | [] => .ok none
  | r :: rs =>
    let acc := accSum + labelCounterGet labels r.label
    if labels.length = 0 then .error .zeroDivisionError
    else if r.percentage ≤ (acc : ℚ) / (labels.length : ℚ) * 100 then
      .ok (some r.label)
    else aggLoop labels acc rs

/-- `Tenant.get_energy_label_of_targeted_subscriptions` (entities.py lines
249-286), with the labeling of the population already done: `labels` is the
list `[s.energy_label.label for s in labeled_subscriptions]`.  On a loop
match the matched label is used, otherwise the default worst label `F`
(lines 280-285); either way `min`/`max` over the counter keys raise
`ValueError` when the population is empty. -/
def getEnergyLabelOfTargetedSubscriptions (labels : List String)
    (thresholds : List AggregationRule) :
    Except PyErr AggregateSubscriptionEnergyLabel :=
  match aggLoop labels 0 thresholds with
  | .error e => .error e
  | .ok matched =>
    match minKey labels, maxKey labels with
    | some best, some worst => .ok ⟨matched.getD "F", best, worst, labels.length⟩
    | _, _ => .error .valueError

/-- `Finding` (entities.py lines 476-591): a view over one raw finding
record, a string-keyed dict. -/
structure Finding where
  data : List (String × String)
deriving DecidableEq, Repr

/-- `hash(x)` on a `Finding`.  The class overrides `__eq__` (entities.py
line 487) without defining `__hash__`, so per the Python data model the
class attribute `__hash__` is implicitly set to `None` and calling
`hash` on an instance raises `TypeError: unhashable type`. -/
def findingHash (_f : Finding) : Except PyErr Nat :=
  .error .typeError

/-- `Finding.__eq__` (entities.py lines 487-491): raises `ValueError` when
the other operand is not a `Finding` (always a `Finding` here, the type
guarantees it), then compares `hash(self) == hash(other)`. -/
def findingEq (a b : Finding) : Except PyErr Bool := do
  let ha ← findingHash a
  let hb ← findingHash b
  pure (ha == hb)

/-- `Finding.__ne__` (entities.py lines 493-497): compares
`hash(self) != hash(other)`. -/
def findingNe (a b : Finding) : Except PyErr Bool := do
  let ha ← findingHash a
  let hb ← findingHash b
  pure (ha != hb)

/-- `Tenant._validate_tenant_subscription_ids` (entities.py lines 156-175):
raises `SubscriptionNotPartOfTenant` when the set difference of the provided
ids and the tenant's subscription ids is non-empty, otherwise returns the
provided list unchanged. -/
def validateTenantSubscriptionIds (subscriptionIds tenantAccountIds : List String) :
    Except PyErr (List String) :=
  if subscriptionIds.filter (fun x => !tenantAccountIds.contains x) ≠ [] then
    .error .subscriptionNotPartOfTenant
  else
    .ok subscriptionIds

/-- Modelled from the spec: `validate_allowed_denied_subscription_ids`
(validations.py, not under `src/`).  Per spec §4.3 and §7, supplying both an
allow-list and a deny-list is a configuration error surfaced immediately;
otherwise the lists pass through. -/
def validateAllowedDeniedSubscriptionIds (allowed denied : List String) :
    Except PyErr (List String × List String) :=
  if allowed ≠ [] ∧ denied ≠ [] then .error .mutuallyExclusiveArguments
  else .ok (allowed, denied)

/-- The allow/deny-list state a constructed `Tenant` holds
(entities.py lines 150-152). -/
structure TenantListState where
  allowedSubscriptionIds : List String
  deniedSubscriptionIds : List String
deriving DecidableEq, Repr

/-- The filtering part of `Tenant.__init__` (entities.py lines 146-152):
collect the tenant's subscription ids, run the mutual-exclusion validation
on the provided lists, then validate each list against the tenant's ids.
No findings are involved: findings only enter later, through
`get_labeled_targeted_subscriptions`. -/
def tenantInit (tenantSubscriptionIds allowed denied : List String) :
    Except PyErr TenantListState :=
  match validateAllowedDeniedSubscriptionIds allowed denied with
  | .error e => .error e
  | .ok (a, d) =>
    match validateTenantSubscriptionIds a tenantSubscriptionIds with
    | .error e => .error e
    | .ok a2 =>
      match validateTenantSubscriptionIds d tenantSubscriptionIds with
      | .error e => .error e
      | .ok d2 => .ok ⟨a2, d2⟩

/-! ## Properties of the classifier threshold loop -/

/-- If every rule of `pre` fails and `t` matches, the loop stops at `t` with
the observed counts, whatever the attribute held before. -/
theorem thresholdLoop_first_match (nH nM nL : Nat) (t : ThresholdRule)
    (post : List ThresholdRule) :
    ∀ (pre : List ThresholdRule) (cur : Option EnergyLabel),
      (∀ t' ∈ pre, ¬ thMatches nH nM nL t') → thMatches nH nM nL t →
      thresholdLoop nH nM nL cur (pre ++ t :: post) = some ⟨t.label, nH, nM, nL⟩
  | [], cur, _, ht => by
      simp [thresholdLoop, if_pos ht]
  | p :: pre, cur, hpre, ht => by
      have hp : ¬ thMatches nH nM nL p := hpre p (List.mem_cons_self p pre)
      simp only [List.cons_append, thresholdLoop, if_neg hp]
      exact thresholdLoop_first_match nH nM nL t post pre _
        (fun t' h => hpre t' (List.mem_cons_of_mem p h)) ht

/-- Once the fallback `F` label is stored, a run in which every remaining
rule fails keeps it. -/
theorem thresholdLoop_keeps_F (nH nM nL : Nat) :
    ∀ (ths : List ThresholdRule),
      (∀ t ∈ ths, ¬ thMatches nH nM nL t) →
      thresholdLoop nH nM nL (some ⟨"F", nH, nM, nL⟩) ths = some ⟨"F", nH, nM, nL⟩
  | [], _ => rfl
  | t :: ths, hall => by
      have ht : ¬ thMatches nH nM nL t := hall t (List.mem_cons_self t ths)
      simp only [thresholdLoop, if_neg ht]
      exact thresholdLoop_keeps_F nH nM nL ths
        (fun t' h => hall t' (List.mem_cons_of_mem t h))

/-- On a non-empty table in which every rule fails, the loop ends with the
fallback `F` label and the observed counts. -/
theorem thresholdLoop_all_fail (nH nM nL : Nat) (cur : Option EnergyLabel)
    (ths : List ThresholdRule) (hne : ths ≠ [])
    (hall : ∀ t ∈ ths, ¬ thMatches nH nM nL t) :
    thresholdLoop nH nM nL cur ths = some ⟨"F", nH, nM, nL⟩ := by
  match ths, hne with
  | t :: ths, _ =>
    have ht : ¬ thMatches nH nM nL t := hall t (List.mem_cons_self t ths)
    simp only [thresholdLoop, if_neg ht]
    exact thresholdLoop_keeps_F nH nM nL ths
      (fun t' h => hall t' (List.mem_cons_of_mem t h))

/-- A non-empty filtered sub-list forces a non-empty row list. -/
theorem rows_ne_nil_of_filter (p : FindingRow → Bool) (rows : List FindingRow)
    (h : rows.filter p ≠ []) : rows.isEmpty = false := by
  cases rows with
  | nil => exact absurd rfl h
  | cons r rows => rfl

/-- Claim C1: for an entity (subscription or resource group) with at least
one matching finding row and a non-empty ordered threshold table,
`get_energy_label` returns the label of the first rule in table order whose
three maxima are all (inclusively) satisfied by the observed counts,
together with the actually observed high/medium/low counts. -/
theorem claim_C1 (prev : Option EnergyLabel) (subscriptionId name : String)
    (rows : List FindingRow) (pre post : List ThresholdRule) (t : ThresholdRule) :
    (subscriptionOpenFindings subscriptionId rows ≠ [] →
      (∀ t' ∈ pre,
        ¬ thMatches (severityCount "High" (subscriptionOpenFindings subscriptionId rows))
          (severityCount "Medium" (subscriptionOpenFindings subscriptionId rows))
          (severityCount "Low" (subscriptionOpenFindings subscriptionId rows)) t') →
      thMatches (severityCount "High" (subscriptionOpenFindings subscriptionId rows))
        (severityCount "Medium" (subscriptionOpenFindings subscriptionId rows))
        (severityCount "Low" (subscriptionOpenFindings subscriptionId rows)) t →
      subscriptionGetEnergyLabel prev subscriptionId rows (pre ++ t :: post) =
        .ok ⟨t.label,
          severityCount "High" (subscriptionOpenFindings subscriptionId rows),
          severityCount "Medium" (subscriptionOpenFindings subscriptionId rows),
          severityCount "Low" (subscriptionOpenFindings subscriptionId rows)⟩)
    ∧
    (resourceGroupOpenFindings name rows ≠ [] →
      (∀ t' ∈ pre,
        ¬ thMatches (severityCount "High" (resourceGroupOpenFindings name rows))
          (severityCount "Medium" (resourceGroupOpenFindings name rows))
          (severityCount "Low" (resourceGroupOpenFindings name rows)) t') →
      thMatches (severityCount "High" (resourceGroupOpenFindings name rows))
        (severityCount "Medium" (resourceGroupOpenFindings name rows))
        (severityCount "Low" (resourceGroupOpenFindings name rows)) t →
      resourceGroupGetEnergyLabel prev name rows (pre ++ t :: post) =
        .ok ⟨t.label,
          severityCount "High" (resourceGroupOpenFindings name rows),
          severityCount "Medium" (resourceGroupOpenFindings name rows),
          severityCount "Low" (resourceGroupOpenFindings name rows)⟩) := by
  constructor
  · intro hne hpre ht
    have hrows : rows.isEmpty = false := rows_ne_nil_of_filter _ rows hne
    simp only [subscriptionGetEnergyLabel, hrows, Bool.false_eq_true, if_false,
      thresholdLoop_first_match _ _ _ _ _ pre prev hpre ht]
  · intro hne hpre ht
    have hrows : rows.isEmpty = false := rows_ne_nil_of_filter _ rows hne
    simp only [resourceGroupGetEnergyLabel, hrows, Bool.false_eq_true, if_false,
      thresholdLoop_first_match _ _ _ _ _ pre prev hpre ht]

/-- Witness for C1 at a concrete input: two matching `High` rows for
subscription `s1`, three name-matching rows for resource group `G1`
(exercising the lower-casing); the `A` rule fails, the `B` rule is the
first match and is returned with the observed counts. -/
theorem claim_C1_witness :
    subscriptionGetEnergyLabel none "s1"
      [⟨"s1", "g1", "High"⟩, ⟨"s1", "g1", "High"⟩, ⟨"x", "g1", "Low"⟩]
      [⟨"A", 0, 0, 0⟩, ⟨"B", 5, 5, 5⟩] = .ok ⟨"B", 2, 0, 0⟩
    ∧ resourceGroupGetEnergyLabel none "G1"
      [⟨"s1", "g1", "High"⟩, ⟨"s1", "g1", "High"⟩, ⟨"x", "g1", "Low"⟩]
      [⟨"A", 0, 0, 0⟩, ⟨"B", 5, 5, 5⟩] = .ok ⟨"B", 2, 0, 1⟩ := by
  have h := claim_C1 none "s1" "G1"
    [⟨"s1", "g1", "High"⟩, ⟨"s1", "g1", "High"⟩, ⟨"x", "g1", "Low"⟩]
    [⟨"A", 0, 0, 0⟩] [] ⟨"B", 5, 5, 5⟩
  exact ⟨h.1 (by decide) (by decide) (by decide), h.2 (by decide) (by decide) (by decide)⟩

/-- Claim C3, counterexample to the claim as stated ("for every entity and
every threshold table ... returns the worst label `F` with the true observed
counts").  First conjunct: with the empty threshold table, every rule
vacuously fails for the observed counts `(1, 0, 0)`, yet the code raises
`AttributeError` (the loop body never runs, `self.energy_label` is never
assigned, and the final `return self.energy_label` blows up) instead of
returning `F, 1, 0, 0`.  Second conjunct: with an empty findings frame the
column lookup raises `KeyError` and the code returns `A, 0, 0, 0` even
though the observed counts `(0, 0, 0)` fail the table's only rule (whose
ceilings are `-1`), instead of returning `F, 0, 0, 0`. -/
theorem claim_C3_counterexample :
    subscriptionGetEnergyLabel none "sub-a" [⟨"sub-a", "rg-a", "High"⟩] [] =
      .error .attributeError
    ∧ subscriptionGetEnergyLabel none "sub-a" [] [⟨"A", -1, -1, -1⟩] =
      .ok ⟨"A", 0, 0, 0⟩ := ⟨rfl, rfl⟩

/-- Claim C3 (amended): for every entity whose findings frame has at least
one row and every non-empty threshold table, if the observed finding counts
fail every rule, `get_energy_label` returns the worst label `F` together
with the true observed counts (not zeroed). -/
theorem claim_C3_amended (prev : Option EnergyLabel) (subscriptionId name : String)
    (rows : List FindingRow) (ths : List ThresholdRule)
    (hrows : rows ≠ []) (hths : ths ≠ []) :
    ((∀ t ∈ ths,
        ¬ thMatches (severityCount "High" (subscriptionOpenFindings subscriptionId rows))
          (severityCount "Medium" (subscriptionOpenFindings subscriptionId rows))
          (severityCount "Low" (subscriptionOpenFindings subscriptionId rows)) t) →
      subscriptionGetEnergyLabel prev subscriptionId rows ths =
        .ok ⟨"F",
          severityCount "High" (subscriptionOpenFindings subscriptionId rows),
          severityCount "Medium" (subscriptionOpenFindings subscriptionId rows),
          severityCount "Low" (subscriptionOpenFindings subscriptionId rows)⟩)
    ∧
    ((∀ t ∈ ths,
        ¬ thMatches (severityCount "High" (resourceGroupOpenFindings name rows))
          (severityCount "Medium" (resourceGroupOpenFindings name rows))
          (severityCount "Low" (resourceGroupOpenFindings name rows)) t) →
      resourceGroupGetEnergyLabel prev name rows ths =
        .ok ⟨"F",
          severityCount "High" (resourceGroupOpenFindings name rows),
          severityCount "Medium" (resourceGroupOpenFindings name rows),
          severityCount "Low" (resourceGroupOpenFindings name rows)⟩) := by
  have hrows' : rows.isEmpty = false := by
    cases rows with
    | nil => exact absurd rfl hrows
    | cons r rows => rfl
  constructor
  · intro hall
    simp only [subscriptionGetEnergyLabel, hrows', Bool.false_eq_true, if_false,
      thresholdLoop_all_fail _ _ _ prev ths hths hall]
  · intro hall
    simp only [resourceGroupGetEnergyLabel, hrows', Bool.false_eq_true, if_false,
      thresholdLoop_all_fail _ _ _ prev ths hths hall]

/-- Witness for the amended C3 at a concrete input: one `High` finding,
every rule of the two-rule table fails, so `F` is returned with the true
count `(1, 0, 0)` for the subscription and for the resource group. -/
theorem claim_C3_amended_witness :
    subscriptionGetEnergyLabel none "s1" [⟨"s1", "g1", "High"⟩]
      [⟨"A", 0, 0, 0⟩, ⟨"B", 0, 5, 5⟩] = .ok ⟨"F", 1, 0, 0⟩
    ∧ resourceGroupGetEnergyLabel none "g1" [⟨"s1", "g1", "High"⟩]
      [⟨"A", 0, 0, 0⟩, ⟨"B", 0, 5, 5⟩] = .ok ⟨"F", 1, 0, 0⟩ := by
  have h := claim_C3_amended none "s1" "g1" [⟨"s1", "g1", "High"⟩]
    [⟨"A", 0, 0, 0⟩, ⟨"B", 0, 5, 5⟩] (by decide) (by decide)
  exact ⟨h.1 (by decide), h.2 (by decide)⟩

/-- Claim C4: for every entity whose identifier matches zero finding rows,
`get_energy_label` returns the best label `A` with all counts zero.  The
default threshold tables live in `configuration.py`, which is not under
`src/`; modelled from the spec §3 ("rules are evaluated in a fixed order
(best label first)" with non-negative count ceilings): the hypothesis
`hshape` states that either the findings frame is empty (the `KeyError`
path returns the hard-coded `A, 0, 0, 0`) or the table's first rule is
labeled `A` with non-negative maxima, which the zero counts then match
first. -/
theorem claim_C4 (prev : Option EnergyLabel) (subscriptionId name : String)
    (rows : List FindingRow) (ths : List ThresholdRule)
    (hshape : rows = [] ∨ ∃ t0 rest, ths = t0 :: rest ∧ t0.label = "A" ∧
      0 ≤ t0.high ∧ 0 ≤ t0.medium ∧ 0 ≤ t0.low) :
    (subscriptionOpenFindings subscriptionId rows = [] →
      subscriptionGetEnergyLabel prev subscriptionId rows ths = .ok ⟨"A", 0, 0, 0⟩)
    ∧
    (resourceGroupOpenFindings name rows = [] →
      resourceGroupGetEnergyLabel prev name rows ths = .ok ⟨"A", 0, 0, 0⟩) := by
  rcases hshape with hrows | ⟨t0, rest, hths, hlabel, hh, hm, hl⟩
  · subst hrows
    exact ⟨fun _ => rfl, fun _ => rfl⟩
  · subst hths
    have hmatch : thMatches 0 0 0 t0 := by
      refine ⟨?_, ?_, ?_⟩ <;> simpa
    constructor
    · intro hnone
      cases hrowsE : rows.isEmpty with
      | true => simp only [subscriptionGetEnergyLabel, hrowsE, if_true]
      | false =>
        simp only [subscriptionGetEnergyLabel, hrowsE, Bool.false_eq_true, if_false,
          hnone]
        simp only [severityCount, List.filter_nil, List.length_nil, thresholdLoop,
          if_pos hmatch, hlabel]
    · intro hnone
      cases hrowsE : rows.isEmpty with
      | true => simp only [resourceGroupGetEnergyLabel, hrowsE, if_true]
      | false =>
        simp only [resourceGroupGetEnergyLabel, hrowsE, Bool.false_eq_true, if_false,
          hnone]
        simp only [severityCount, List.filter_nil, List.length_nil, thresholdLoop,
          if_pos hmatch, hlabel]

/-- Witness for C4 at a concrete input: a frame with one row for a foreign
subscription and a foreign resource group; both classifiers see zero
matching rows and return `A` with zero counts under the default-shaped
table. -/
theorem claim_C4_witness :
    subscriptionGetEnergyLabel none "s1" [⟨"s9", "g9", "High"⟩]
      [⟨"A", 0, 0, 5⟩, ⟨"B", 0, 5, 10⟩] = .ok ⟨"A", 0, 0, 0⟩
    ∧ resourceGroupGetEnergyLabel none "g1" [⟨"s9", "g9", "High"⟩]
      [⟨"A", 0, 0, 5⟩, ⟨"B", 0, 5, 10⟩] = .ok ⟨"A", 0, 0, 0⟩ := by
  have h := claim_C4 none "s1" "g1" [⟨"s9", "g9", "High"⟩]
    [⟨"A", 0, 0, 5⟩, ⟨"B", 0, 5, 10⟩]
    (Or.inr ⟨⟨"A", 0, 0, 5⟩, [⟨"B", 0, 5, 10⟩], rfl, rfl, by decide, by decide, by decide⟩)
  exact ⟨h.1 (by decide), h.2 (by decide)⟩

/-- Claim C5: the claim says no exception ever escapes `get_energy_label`
and that any internal failure is substituted with the worst label `F`; the
code's own `except` handler even logs `using the default "F"`.  But the
handler assigns nothing, so on a fresh object whose threshold loop never
stores a label (here: the degenerate empty threshold table, one matching
finding row) the final `return self.energy_label` raises `AttributeError`,
which escapes to the caller — the code contradicts its own logged intent. -/
theorem claim_C5_failing :
    subscriptionGetEnergyLabel none "sub-b" [⟨"sub-b", "rg-b", "High"⟩] [] =
      .error .attributeError
    ∧ resourceGroupGetEnergyLabel none "rg-b" [⟨"sub-b", "rg-b", "High"⟩] [] =
      .error .attributeError := ⟨rfl, rfl⟩

/-- Filtering commutes with a row transformation that the filter predicate
cannot observe. -/
theorem filter_map_invariant (g : FindingRow → FindingRow) (p : FindingRow → Bool)
    (hp : ∀ r, p (g r) = p r) :
    ∀ rows : List FindingRow, (rows.map g).filter p = (rows.filter p).map g
  | [] => rfl
  | r :: rows => by
    cases hpr : p r with
    | true =>
      simp [List.filter_cons, hp r, hpr, filter_map_invariant g p hp rows]
    | false =>
      simp [List.filter_cons, hp r, hpr, filter_map_invariant g p hp rows]

/-- Claim C9, counterexample to the claim as stated (resource-group
findings are "scoped within the owning subscription").  Resource group
`RG1` (name lower-cased to `rg1` for matching); the frame holds one `High`
finding for `rg1` under subscription `sub-1` and one under `sub-2`.  The
code counts both (first conjunct: high count 2, failing the `A` rule whose
ceiling is 1, so `F, 2, 0, 0`), although per the claim the `sub-2` row must
not count toward this group: with only the `sub-1` row the result would be
`A, 1, 0, 0` (second conjunct). -/
theorem claim_C9_counterexample :
    resourceGroupGetEnergyLabel none "RG1"
      [⟨"sub-1", "rg1", "High"⟩, ⟨"sub-2", "rg1", "High"⟩]
      [⟨"A", 1, 5, 5⟩] = .ok ⟨"F", 2, 0, 0⟩
    ∧ resourceGroupGetEnergyLabel none "RG1"
      [⟨"sub-1", "rg1", "High"⟩]
      [⟨"A", 1, 5, 5⟩] = .ok ⟨"A", 1, 0, 0⟩ := ⟨rfl, rfl⟩

/-- Claim C9 (amended): `ResourceGroup.get_energy_label` counts exactly the
findings whose `Resource Group Name` equals the group's lower-cased name,
with no subscription scoping at all: its result is invariant under
arbitrary rewrites of every row's subscription id, so a finding with the
same resource-group name but a different subscription id is counted all the
same. -/
theorem claim_C9_amended (prev : Option EnergyLabel) (name : String)
    (rows : List FindingRow) (ths : List ThresholdRule)
    (f : FindingRow → String) :
    resourceGroupGetEnergyLabel prev name
      (rows.map (fun r => { r with subscriptionId := f r })) ths =
      resourceGroupGetEnergyLabel prev name rows ths := by
  have hopen : resourceGroupOpenFindings name
      (rows.map (fun r => { r with subscriptionId := f r })) =
      (resourceGroupOpenFindings name rows).map
        (fun r => { r with subscriptionId := f r }) := by
    simp only [resourceGroupOpenFindings]
    exact filter_map_invariant (fun r => { r with subscriptionId := f r })
      (fun r => r.resourceGroupName == pyLower name) (fun r => rfl) rows
  have hsev : ∀ (sev : String) (l : List FindingRow),
      severityCount sev (l.map (fun r => { r with subscriptionId := f r })) =
        severityCount sev l := by
    intro sev l
    simp only [severityCount,
      filter_map_invariant (fun r => { r with subscriptionId := f r })
        (fun r => r.severity == sev) (fun r => rfl) l,
      List.length_map]
  have hempty : (rows.map (fun r => { r with subscriptionId := f r })).isEmpty =
      rows.isEmpty := by
    cases rows <;> rfl
  simp only [resourceGroupGetEnergyLabel, hempty, hopen, hsev]

/-- Claim C10: `Finding.__eq__` is documented (and specified) as content
comparison via `hash(self) == hash(other)`, never raising between two
`Finding`s.  But the class overrides `__eq__` without defining `__hash__`,
so Python sets `Finding.__hash__ = None` and `hash(self)` raises
`TypeError: unhashable type: 'Finding'`: comparing two findings built from
the identical raw record raises instead of returning `True`, and `!=`
raises likewise — the code contradicts its own documented intent. -/
theorem claim_C10_failing :
    findingEq ⟨[("severity", "High"), ("subscriptionId", "sub-1")]⟩
      ⟨[("severity", "High"), ("subscriptionId", "sub-1")]⟩ = .error .typeError
    ∧ findingNe ⟨[("severity", "High"), ("subscriptionId", "sub-1")]⟩
      ⟨[("severity", "High"), ("subscriptionId", "sub-1")]⟩ = .error .typeError :=
  ⟨rfl, rfl⟩

/-- The set difference `set(subscription_ids) - set(tenant_account_ids)` is
non-empty exactly when some provided id is not a tenant id. -/
theorem validateTenantSubscriptionIds_error (subscriptionIds tenantAccountIds : List String)
    (h : ∃ x ∈ subscriptionIds, x ∉ tenantAccountIds) :
    validateTenantSubscriptionIds subscriptionIds tenantAccountIds =
      .error .subscriptionNotPartOfTenant := by
  have hne : subscriptionIds.filter (fun x => !tenantAccountIds.contains x) ≠ [] := by
    simp only [ne_eq, List.filter_eq_nil_iff]
    push_neg
    simpa using h
  simp only [validateTenantSubscriptionIds, if_pos hne]

/-- When every provided id is a tenant id, validation returns the list
unchanged. -/
theorem validateTenantSubscriptionIds_ok (subscriptionIds tenantAccountIds : List String)
    (h : ∀ x ∈ subscriptionIds, x ∈ tenantAccountIds) :
    validateTenantSubscriptionIds subscriptionIds tenantAccountIds =
      .ok subscriptionIds := by
  have hnil : subscriptionIds.filter (fun x => !tenantAccountIds.contains x) = [] := by
    simp only [List.filter_eq_nil_iff]
    simpa using h
  simp only [validateTenantSubscriptionIds, hnil]
  simp

/-- Claim C7: if the allow-list (or, symmetrically, the deny-list) supplied
at `Tenant` construction contains a subscription id that is not among the
tenant's subscription ids, `SubscriptionNotPartOfTenant` is raised during
construction — `__init__` takes no findings at all, so this happens before
any findings are processed — and if every listed id belongs to the tenant
the lists are accepted unchanged.  (The mutual-exclusion check
`validate_allowed_denied_subscription_ids` that runs first lives in
`validations.py`, outside `src/`, and is modelled from the spec.) -/
theorem claim_C7 (tenantSubscriptionIds allowed denied : List String) :
    (denied = [] → (∃ x ∈ allowed, x ∉ tenantSubscriptionIds) →
      tenantInit tenantSubscriptionIds allowed denied =
        .error .subscriptionNotPartOfTenant)
    ∧
    (allowed = [] → (∃ x ∈ denied, x ∉ tenantSubscriptionIds) →
      tenantInit tenantSubscriptionIds allowed denied =
        .error .subscriptionNotPartOfTenant)
    ∧
    ((∀ x ∈ allowed, x ∈ tenantSubscriptionIds) →
      (∀ x ∈ denied, x ∈ tenantSubscriptionIds) →
      ¬(allowed ≠ [] ∧ denied ≠ []) →
      tenantInit tenantSubscriptionIds allowed denied = .ok ⟨allowed, denied⟩) := by
  refine ⟨?_, ?_, ?_⟩
  · intro hd hbad
    subst hd
    have hv : validateAllowedDeniedSubscriptionIds allowed [] =
        .ok (allowed, []) := by
      simp only [validateAllowedDeniedSubscriptionIds]
      rw [if_neg (by simp)]
    simp only [tenantInit, hv,
      validateTenantSubscriptionIds_error allowed tenantSubscriptionIds hbad]
  · intro ha hbad
    subst ha
    have hv : validateAllowedDeniedSubscriptionIds [] denied =
        .ok ([], denied) := by
      simp only [validateAllowedDeniedSubscriptionIds]
      rw [if_neg (by simp)]
    simp only [tenantInit, hv,
      validateTenantSubscriptionIds_ok [] tenantSubscriptionIds (by simp),
      validateTenantSubscriptionIds_error denied tenantSubscriptionIds hbad]
  · intro hall1 hall2 hboth
    have hv : validateAllowedDeniedSubscriptionIds allowed denied =
        .ok (allowed, denied) := by
      simp only [validateAllowedDeniedSubscriptionIds]
      rw [if_neg hboth]
    simp only [tenantInit, hv,
      validateTenantSubscriptionIds_ok allowed tenantSubscriptionIds hall1,
      validateTenantSubscriptionIds_ok denied tenantSubscriptionIds hall2]

/-- Witness for C7 at concrete inputs: an allow-list with the foreign id
`sub-x` raises the configuration error, while an allow-list fully inside
the tenant is accepted unchanged. -/
theorem claim_C7_witness :
    tenantInit ["sub-1", "sub-2"] ["sub-x"] [] = .error .subscriptionNotPartOfTenant
    ∧ tenantInit ["sub-1", "sub-2"] ["sub-2"] [] = .ok ⟨["sub-2"], []⟩ := by
  constructor
  · exact (claim_C7 ["sub-1", "sub-2"] ["sub-x"] []).1 rfl
      ⟨"sub-x", by decide, by decide⟩
  · exact (claim_C7 ["sub-1", "sub-2"] ["sub-2"] []).2.2 (by decide) (by decide)
      (by simp)

/-! ## Properties of the aggregation loop -/

/-- `sum(subscription_sums)` after the rules in `ths` have been processed:
the cumulative count of subscriptions whose label is one of the rule labels
seen so far. -/
def cumSum (labels : List String) (ths : List AggregationRule) : Nat :=
  (ths.map (fun r => labelCounterGet labels r.label)).sum

theorem cumSum_append (labels : List String) (l1 l2 : List AggregationRule) :
    cumSum labels (l1 ++ l2) = cumSum labels l1 + cumSum labels l2 := by
  simp [cumSum]

/-- The aggregator's stopping condition for rule `r` when the rules `pre`
precede it: `sum(subscription_sums) / number_of_subscriptions * 100 >=
percentage` (entities.py line 273). -/
def aggSat (labels : List String) (pre : List AggregationRule)
    (r : AggregationRule) : Prop :=
  r.percentage ≤ (cumSum labels (pre ++ [r]) : ℚ) / (labels.length : ℚ) * 100

instance (labels : List String) (pre : List AggregationRule) (r : AggregationRule) :
    Decidable (aggSat labels pre r) := by
  unfold aggSat; infer_instance

/-- On a non-empty population, the loop stops at the first rule whose
cumulative percentage test holds and returns its label. -/
theorem aggLoop_first_sat (labels : List String) (hn : labels ≠ [])
    (r : AggregationRule) (post : List AggregationRule) :
    ∀ (pre done : List AggregationRule),
      (∀ p1 r2 p2, pre = p1 ++ r2 :: p2 → ¬ aggSat labels (done ++ p1) r2) →
      aggSat labels (done ++ pre) r →
      aggLoop labels (cumSum labels done) (pre ++ r :: post) = .ok (some r.label)
  | [], done, _, hsat => by
      have hlen : labels.length ≠ 0 := fun h => hn (List.length_eq_zero.mp h)
      have hacc : cumSum labels done + labelCounterGet labels r.label =
          cumSum labels (done ++ [r]) := by
        simp [cumSum_append, cumSum, labelCounterGet]
      have hsat' : r.percentage ≤
          ((cumSum labels done + labelCounterGet labels r.label : Nat) : ℚ) /
            (labels.length : ℚ) * 100 := by
        rw [hacc]
        simpa [aggSat] using hsat
      simp only [List.nil_append, aggLoop, if_neg hlen, if_pos hsat']
  | p :: pre, done, hpre, hsat => by
      have hlen : labels.length ≠ 0 := fun h => hn (List.length_eq_zero.mp h)
      have hp : ¬ aggSat labels done p := by
        have := hpre [] p pre rfl
        simpa using this
      have hacc : cumSum labels done + labelCounterGet labels p.label =
          cumSum labels (done ++ [p]) := by
        simp [cumSum_append, cumSum, labelCounterGet]
      have hp' : ¬ (p.percentage ≤
          ((cumSum labels done + labelCounterGet labels p.label : Nat) : ℚ) /
            (labels.length : ℚ) * 100) := by
        rw [hacc]
        simpa [aggSat] using hp
      simp only [List.cons_append, aggLoop, if_neg hlen, if_neg hp']
      rw [hacc]
      exact aggLoop_first_sat labels hn r post pre (done ++ [p])
        (fun p1 r2 p2 h => by
          have := hpre (p :: p1) r2 p2 (by simp [h])
          simpa [List.append_assoc] using this)
        (by simpa [List.append_assoc] using hsat)

/-- On a non-empty population, if no rule's cumulative percentage test
holds, the loop exhausts the rules and returns `none` (the `for`/`else`
branch). -/
theorem aggLoop_no_sat (labels : List String) (hn : labels ≠ []) :
    ∀ (ths done : List AggregationRule),
      (∀ p1 r p2, ths = p1 ++ r :: p2 → ¬ aggSat labels (done ++ p1) r) →
      aggLoop labels (cumSum labels done) ths = .ok none
  | [], _, _ => rfl
  | r :: ths, done, hall => by
      have hlen : labels.length ≠ 0 := fun h => hn (List.length_eq_zero.mp h)
      have hr : ¬ aggSat labels done r := by
        have := hall [] r ths rfl
        simpa using this
      have hacc : cumSum labels done + labelCounterGet labels r.label =
          cumSum labels (done ++ [r]) := by
        simp [cumSum_append, cumSum, labelCounterGet]
      have hr' : ¬ (r.percentage ≤
          ((cumSum labels done + labelCounterGet labels r.label : Nat) : ℚ) /
            (labels.length : ℚ) * 100) := by
        rw [hacc]
        simpa [aggSat] using hr
      simp only [aggLoop, if_neg hlen, if_neg hr']
      rw [hacc]
      exact aggLoop_no_sat labels hn ths (done ++ [r])
        (fun p1 r2 p2 h => by
          have := hall (r :: p1) r2 p2 (by simp [h])
          simpa [List.append_assoc] using this)

/-- Claim C2: on a non-empty population and an ordered aggregation rule
table, the aggregator walks the rules in order with a running cumulative
count and returns the label of the first rule whose test
`cumulative / populationSize * 100 >= percentage` holds (so when several
rules would satisfy their test, the earliest — best — one wins), and
returns label `F` when no rule's test holds; either way the best and worst
labels seen and the population size are attached. -/
theorem claim_C2 (labels : List String) (ths : List AggregationRule)
    (hn : labels ≠ []) :
    (∀ (pre : List AggregationRule) (r : AggregationRule) (post : List AggregationRule),
      ths = pre ++ r :: post →
      (∀ p1 r2 p2, pre = p1 ++ r2 :: p2 → ¬ aggSat labels p1 r2) →
      aggSat labels pre r →
      getEnergyLabelOfTargetedSubscriptions labels ths =
        .ok ⟨r.label, (minKey labels).getD "", (maxKey labels).getD "",
          labels.length⟩)
    ∧
    ((∀ p1 r p2, ths = p1 ++ r :: p2 → ¬ aggSat labels p1 r) →
      getEnergyLabelOfTargetedSubscriptions labels ths =
        .ok ⟨"F", (minKey labels).getD "", (maxKey labels).getD "",
          labels.length⟩) := by
  constructor
  · intro pre r post hths hpre hsat
    subst hths
    have hloop := aggLoop_first_sat labels hn r post pre []
      (by simpa using hpre) (by simpa using hsat)
    simp only [cumSum, List.map_nil, List.sum_nil] at hloop
    match labels, hn with
    | x :: xs, _ =>
      simp only [getEnergyLabelOfTargetedSubscriptions, hloop, minKey, maxKey,
        Option.getD_some]
  · intro hall
    have hloop := aggLoop_no_sat labels hn ths [] (by simpa using hall)
    simp only [cumSum, List.map_nil, List.sum_nil] at hloop
    match labels, hn with
    | x :: xs, _ =>
      simp only [getEnergyLabelOfTargetedSubscriptions, hloop, minKey, maxKey,
        Option.getD_none, Option.getD_some]

/-- Witness for C2 at a concrete input: population `[B, A, A]`; the `A`
rule (needing 60%) is satisfied first with cumulative count 2 of 3
(66.7%), so `A` is returned even though the `B` rule (needing 90%, met at
100%) would also be satisfied — the earlier rule wins. -/
theorem claim_C2_witness :
    getEnergyLabelOfTargetedSubscriptions ["B", "A", "A"]
      [⟨"A", 60⟩, ⟨"B", 90⟩] = .ok ⟨"A", "A", "B", 3⟩ := by
  have h := (claim_C2 ["B", "A", "A"] [⟨"A", 60⟩, ⟨"B", 90⟩] (by decide)).1
    [] ⟨"A", 60⟩ [⟨"B", 90⟩] rfl
    (by intro p1 r2 p2 hsplit; simp at hsplit)
    (by norm_num +decide [aggSat, cumSum, labelCounterGet, List.count_cons, List.count_nil])
  simpa [minKey, maxKey] using h

/-- Claim C6, counterexample to the claim as stated: on an empty population
the aggregator does not surface an explicit empty-population error; the
unguarded `sum(subscription_sums) / number_of_subscriptions * 100`
(entities.py line 273) raises `ZeroDivisionError` on the first rule, and
that arithmetic exception is what propagates to the caller. -/
theorem claim_C6_counterexample :
    getEnergyLabelOfTargetedSubscriptions [] [⟨"A", 90⟩] =
      .error .zeroDivisionError := rfl

/-- Claim C6 (amended): on an empty population and a non-empty rule table,
the aggregator propagates the arithmetic `ZeroDivisionError` from the first
rule's percentage computation; no explicit empty-population error exists in
the code.  (With an empty rule table the failure is instead `min()` of no
counter keys, a `ValueError`.) -/
theorem claim_C6_amended (ths : List AggregationRule) (hths : ths ≠ []) :
    getEnergyLabelOfTargetedSubscriptions [] ths = .error .zeroDivisionError := by
  match ths, hths with
  | r :: rs, _ => rfl

/-- Witness for the amended C6 at a concrete rule table. -/
theorem claim_C6_amended_witness :
    getEnergyLabelOfTargetedSubscriptions [] [⟨"B", 50⟩, ⟨"C", 70⟩] =
      .error .zeroDivisionError :=
  claim_C6_amended [⟨"B", 50⟩, ⟨"C", 70⟩] (by simp)

/-! ## Monotonicity analysis of the aggregator -/

/-- The pure result of the aggregation loop on a non-empty population (on
which the division cannot raise): the first matched rule's label, `none` on
exhaustion. -/
def aggPickAux (labels : List String) (accSum : Nat) :
    List AggregationRule → Option String
  | [] => none
  | r :: rs =>
    let acc := accSum + labelCounterGet labels r.label
    if r.percentage ≤ (acc : ℚ) / (labels.length : ℚ) * 100 then some r.label
    else aggPickAux labels acc rs

/-- On a non-empty population the loop equals its pure mirror. -/
theorem aggLoop_eq_pick (labels : List String) (hn : labels ≠ []) :
    ∀ (ths : List AggregationRule) (acc : Nat),
      aggLoop labels acc ths = .ok (aggPickAux labels acc ths)
  | [], _ => rfl
  | r :: rs, acc => by
    have hlen : labels.length ≠ 0 := fun h => hn (List.length_eq_zero.mp h)
    by_cases hc : r.percentage ≤
        ((acc + labelCounterGet labels r.label : Nat) : ℚ) /
          (labels.length : ℚ) * 100
    · simp only [aggLoop, aggPickAux, if_neg hlen, if_pos hc]
    · simp only [aggLoop, aggPickAux, if_neg hlen, if_neg hc]
      exact aggLoop_eq_pick labels hn rs _

/-- On a non-empty population the aggregate result is the picked (or
fallback `F`) label with the extreme keys and the population size. -/
theorem getEnergyLabelOfTargetedSubscriptions_eq_pick (labels : List String)
    (hn : labels ≠ []) (ths : List AggregationRule) :
    getEnergyLabelOfTargetedSubscriptions labels ths =
      .ok ⟨(aggPickAux labels 0 ths).getD "F", (minKey labels).getD "",
        (maxKey labels).getD "", labels.length⟩ := by
  match labels, hn with
  | x :: xs, hn =>
    simp only [getEnergyLabelOfTargetedSubscriptions,
      aggLoop_eq_pick (x :: xs) hn ths 0, minKey, maxKey, Option.getD_some]

/-- The pick, when it exists, is the label of one of the rules. -/
theorem aggPickAux_mem (labels : List String) :
    ∀ (rs : List AggregationRule) (acc : Nat),
      aggPickAux labels acc rs = none ∨
        ∃ r ∈ rs, aggPickAux labels acc rs = some r.label
  | [], _ => Or.inl rfl
  | r :: rs, acc => by
    by_cases hc : r.percentage ≤
        ((acc + labelCounterGet labels r.label : Nat) : ℚ) /
          (labels.length : ℚ) * 100
    · right
      exact ⟨r, List.mem_cons_self r rs, by simp only [aggPickAux, if_pos hc]⟩
    · rcases aggPickAux_mem labels rs (acc + labelCounterGet labels r.label) with
        hnone | ⟨r2, hr2, heq⟩
      · left
        simp only [aggPickAux, if_neg hc]
        exact hnone
      · right
        exact ⟨r2, List.mem_cons_of_mem r hr2, by
          simp only [aggPickAux, if_neg hc]
          exact heq⟩

theorem cumSum_nil_labels : ∀ rs : List AggregationRule, cumSum [] rs = 0
  | [] => rfl
  | r :: rs => by
    simp [cumSum, labelCounterGet] at *

/-- Adding one subscription with label `x` raises the cumulative sum by the
number of rules labeled `x`. -/
theorem cumSum_cons_labels (x : String) (labels : List String) :
    ∀ rs : List AggregationRule,
      cumSum (x :: labels) rs = cumSum labels rs + (rs.map (·.label)).count x
  | [] => by simp [cumSum]
  | r :: rs => by
    have ih := cumSum_cons_labels x labels rs
    by_cases h : r.label = x
    · simp only [cumSum, List.map_cons, List.sum_cons, labelCounterGet,
        List.count_cons, h] at *
      simp only [beq_self_eq_true, if_true]
      omega
    · simp only [cumSum, List.map_cons, List.sum_cons, labelCounterGet,
        List.count_cons] at *
      have h1 : (x == r.label) = false := by
        simpa using fun hc => h hc.symm
      have h2 : (r.label == x) = false := by simpa using h
      simp only [h1, h2, if_false]
      omega

/-- With pairwise-distinct rule labels the cumulative sum never exceeds the
population size. -/
theorem cumSum_le_length (rs : List AggregationRule)
    (hnodup : (rs.map (·.label)).Nodup) :
    ∀ labels : List String, cumSum labels rs ≤ labels.length
  | [] => by simp [cumSum_nil_labels]
  | x :: labels => by
    have hcount : (rs.map (·.label)).count x ≤ 1 :=
      List.nodup_iff_count_le_one.mp hnodup x
    have ih := cumSum_le_length rs hnodup labels
    rw [cumSum_cons_labels]
    simp only [List.length_cons]
    omega

/-- Adding one member that counts raises (weakly) a satisfied percentage:
if `c ≤ n` and `p ≤ c/n·100` then `p ≤ (c+1)/(n+1)·100`. -/
theorem ratio_step (c n : Nat) (hn : 0 < n) (hc : c ≤ n) (p : ℚ)
    (h : p ≤ (c : ℚ) / (n : ℚ) * 100) :
    p ≤ ((c : ℚ) + 1) / ((n : ℚ) + 1) * 100 := by
  have h1 : (0 : ℚ) < n := by exact_mod_cast hn
  have h2 : (0 : ℚ) < (n : ℚ) + 1 := by positivity
  have hcq : (c : ℚ) ≤ n := by exact_mod_cast hc
  have key : (c : ℚ) / n ≤ ((c : ℚ) + 1) / ((n : ℚ) + 1) := by
    rw [div_le_div_iff₀ h1 h2]
    nlinarith
  calc p ≤ (c : ℚ) / n * 100 := h
    _ ≤ ((c : ℚ) + 1) / ((n : ℚ) + 1) * 100 :=
        mul_le_mul_of_nonneg_right key (by norm_num)

/-- Core monotonicity of the rule walk after the leading `A` rule has been
processed: with one extra `A`-labeled subscription the running sum is one
ahead, no later rule is labeled `A`, the rule labels are sorted and at most
`F`, and the running sum can never overshoot the population; then the label
the walk yields for the larger population is at most (at least as good as)
the one for the original population. -/
theorem aggPickAux_add_A_le (labels : List String) (hn : labels ≠ []) :
    ∀ (rs : List AggregationRule) (aO : Nat),
      (∀ r ∈ rs, r.label ≠ "A") →
      (∀ r ∈ rs, r.label ≤ "F") →
      ((rs.map (·.label)).Pairwise (· ≤ ·)) →
      aO + cumSum labels rs ≤ labels.length →
      (aggPickAux ("A" :: labels) (aO + 1) rs).getD "F" ≤
        (aggPickAux labels aO rs).getD "F"
  | [], aO, _, _, _, _ => le_refl "F"
  | r :: rs, aO, hA, hF, hsorted, hbound => by
    have hnpos : 0 < labels.length := List.length_pos.mpr hn
    have hcount : labelCounterGet ("A" :: labels) r.label =
        labelCounterGet labels r.label := by
      have hne : r.label ≠ "A" := hA r (List.mem_cons_self r rs)
      simp [labelCounterGet, List.count_cons, hne, Ne.symm hne]
    have hsplit : cumSum labels (r :: rs) =
        labelCounterGet labels r.label + cumSum labels rs := by
      simp [cumSum]
    have hcO_le : aO + labelCounterGet labels r.label ≤ labels.length := by
      omega
    by_cases hN : r.percentage ≤
        ((aO + 1 + labelCounterGet ("A" :: labels) r.label : Nat) : ℚ) /
          (("A" :: labels).length : ℚ) * 100
    · -- the larger population stops at `r` already
      have hNpick : aggPickAux ("A" :: labels) (aO + 1) (r :: rs) = some r.label := by
        simp only [aggPickAux, if_pos hN]
      rw [hNpick]
      by_cases hO : r.percentage ≤
          ((aO + labelCounterGet labels r.label : Nat) : ℚ) /
            (labels.length : ℚ) * 100
      · have hOpick : aggPickAux labels aO (r :: rs) = some r.label := by
          simp only [aggPickAux, if_pos hO]
        rw [hOpick]
      · have hOpick : aggPickAux labels aO (r :: rs) =
            aggPickAux labels (aO + labelCounterGet labels r.label) rs := by
          simp only [aggPickAux, if_neg hO]
        rw [hOpick]
        rcases aggPickAux_mem labels rs (aO + labelCounterGet labels r.label) with
          hnone | ⟨r2, hr2, heq⟩
        · rw [hnone]
          exact hF r (List.mem_cons_self r rs)
        · rw [heq]
          simp only [Option.getD_some]
          have hs := hsorted
          rw [List.map_cons] at hs
          exact (List.pairwise_cons.mp hs).1 r2.label
            (List.mem_map_of_mem (·.label) hr2)
    · -- neither population stops at `r`: the original cannot either
      have hO : ¬ r.percentage ≤
          ((aO + labelCounterGet labels r.label : Nat) : ℚ) /
            (labels.length : ℚ) * 100 := by
        intro hO
        apply hN
        have step := ratio_step (aO + labelCounterGet labels r.label)
          labels.length hnpos hcO_le r.percentage (by push_cast at hO ⊢; exact hO)
        rw [hcount]
        push_cast
        simpa [add_comm, add_left_comm, add_assoc] using step
      have harr : aO + 1 + labelCounterGet labels r.label =
          aO + labelCounterGet labels r.label + 1 := by omega
      have hN2 : ¬ r.percentage ≤
          ((aO + labelCounterGet labels r.label + 1 : Nat) : ℚ) /
            (("A" :: labels).length : ℚ) * 100 := by
        simpa [hcount, harr] using hN
      have hNpick : aggPickAux ("A" :: labels) (aO + 1) (r :: rs) =
          aggPickAux ("A" :: labels)
            (aO + labelCounterGet labels r.label + 1) rs := by
        simp only [aggPickAux, hcount, harr, if_neg hN2]
      have hOpick : aggPickAux labels aO (r :: rs) =
          aggPickAux labels (aO + labelCounterGet labels r.label) rs := by
        simp only [aggPickAux, if_neg hO]
      rw [hNpick, hOpick]
      exact aggPickAux_add_A_le labels hn rs
        (aO + labelCounterGet labels r.label)
        (fun r' h => hA r' (List.mem_cons_of_mem r h))
        (fun r' h => hF r' (List.mem_cons_of_mem r h))
        (by
          have hs := hsorted
          rw [List.map_cons] at hs
          exact (List.pairwise_cons.mp hs).2)
        (by omega)

/-- Claim C8, counterexample to the claim as stated ("for every ...
aggregation rule table"): with the rule table `[{B: 60%}]` the singleton
population `[B]` aggregates to `B` (100% ≥ 60%), but after adding one
best-label `A` subscription the cumulative share of `B`-or-better drops to
50% < 60%, no rule matches any more and the aggregate falls to `F` — a
strictly worse label. -/
theorem claim_C8_counterexample :
    getEnergyLabelOfTargetedSubscriptions ["B"] [⟨"B", 60⟩] =
      .ok ⟨"B", "B", "B", 1⟩
    ∧ getEnergyLabelOfTargetedSubscriptions ["A", "B"] [⟨"B", 60⟩] =
      .ok ⟨"F", "A", "B", 2⟩
    ∧ ("B" : String) < "F" := by
  refine ⟨?_, ?_, ?_⟩
  · norm_num +decide [getEnergyLabelOfTargetedSubscriptions, aggLoop,
      labelCounterGet, minKey, maxKey, List.count_cons, List.count_nil]
  · norm_num +decide [getEnergyLabelOfTargetedSubscriptions, aggLoop,
      labelCounterGet, minKey, maxKey, List.count_cons, List.count_nil]
  · rw [String.lt_iff_toList_lt]
    decide

/-- Claim C8 (amended): for every non-empty population and every
aggregation rule table that is well-formed in the sense of the data model —
pairwise-distinct labels sorted best to worst, starting at the best label
`A` and not beyond `F` — adding one subscription with the best label `A`
yields an aggregate label better than or equal to (never worse than) the
original aggregate label. -/
theorem claim_C8_amended (labels : List String) (hn : labels ≠ [])
    (p0 : ℚ) (rest : List AggregationRule)
    (hsorted : (((⟨"A", p0⟩ : AggregationRule) :: rest).map
      (·.label)).Pairwise (· < ·))
    (hF : ∀ r ∈ (⟨"A", p0⟩ : AggregationRule) :: rest, r.label ≤ "F") :
    ∃ outN outO,
      getEnergyLabelOfTargetedSubscriptions ("A" :: labels)
        ((⟨"A", p0⟩ : AggregationRule) :: rest) = .ok outN ∧
      getEnergyLabelOfTargetedSubscriptions labels
        ((⟨"A", p0⟩ : AggregationRule) :: rest) = .ok outO ∧
      outN.label ≤ outO.label := by
  refine ⟨_, _,
    getEnergyLabelOfTargetedSubscriptions_eq_pick ("A" :: labels)
      (by simp) _,
    getEnergyLabelOfTargetedSubscriptions_eq_pick labels hn _, ?_⟩
  have hnodup : ((((⟨"A", p0⟩ : AggregationRule) :: rest).map
      (·.label))).Nodup := hsorted.imp (fun h => ne_of_lt h)
  have hs := hsorted
  rw [List.map_cons] at hs
  obtain ⟨hhead, htail⟩ := List.pairwise_cons.mp hs
  have hA : ∀ r ∈ rest, r.label ≠ "A" := fun r h =>
    (hhead r.label (List.mem_map_of_mem (·.label) h)).ne'
  have hnpos : 0 < labels.length := List.length_pos.mpr hn
  have hcountN : labelCounterGet ("A" :: labels) "A" =
      labelCounterGet labels "A" + 1 := by
    simp [labelCounterGet, List.count_cons]
  have hc_le : labelCounterGet labels "A" ≤ labels.length :=
    List.count_le_length "A" labels
  have htot : cumSum labels ((⟨"A", p0⟩ : AggregationRule) :: rest) ≤
      labels.length := cumSum_le_length _ hnodup labels
  have hsplit : cumSum labels ((⟨"A", p0⟩ : AggregationRule) :: rest) =
      labelCounterGet labels "A" + cumSum labels rest := by
    simp [cumSum]
  by_cases hN : p0 ≤
      ((0 + labelCounterGet ("A" :: labels) "A" : Nat) : ℚ) /
        (("A" :: labels).length : ℚ) * 100
  · have hNpick : aggPickAux ("A" :: labels) 0
        ((⟨"A", p0⟩ : AggregationRule) :: rest) = some "A" := by
      simp only [aggPickAux, if_pos hN]
    rw [hNpick]
    simp only [Option.getD_some]
    rcases aggPickAux_mem labels ((⟨"A", p0⟩ : AggregationRule) :: rest) 0 with
      hnone | ⟨r2, hr2, heq⟩
    · rw [hnone]
      exact hF _ (List.mem_cons_self _ _)
    · rw [heq]
      simp only [Option.getD_some]
      rcases List.mem_cons.mp hr2 with h0 | hmem
      · subst h0
        exact le_refl _
      · exact le_of_lt (hhead r2.label (List.mem_map_of_mem (·.label) hmem))
  · have hO : ¬ p0 ≤
        ((0 + labelCounterGet labels "A" : Nat) : ℚ) /
          (labels.length : ℚ) * 100 := by
      intro hO
      apply hN
      have step := ratio_step (labelCounterGet labels "A") labels.length
        hnpos hc_le p0 (by push_cast at hO ⊢; simpa using hO)
      rw [hcountN]
      push_cast
      simpa using step
    have hN2 : ¬ p0 ≤
        ((labelCounterGet labels "A" + 1 : Nat) : ℚ) /
          (("A" :: labels).length : ℚ) * 100 := by
      simpa [hcountN] using hN
    have hO2 : ¬ p0 ≤
        ((labelCounterGet labels "A" : Nat) : ℚ) /
          (labels.length : ℚ) * 100 := by
      simpa using hO
    have hNpick : aggPickAux ("A" :: labels) 0
        ((⟨"A", p0⟩ : AggregationRule) :: rest) =
        aggPickAux ("A" :: labels) (labelCounterGet labels "A" + 1) rest := by
      simp only [aggPickAux, hcountN, Nat.zero_add, if_neg hN2]
    have hOpick : aggPickAux labels 0
        ((⟨"A", p0⟩ : AggregationRule) :: rest) =
        aggPickAux labels (labelCounterGet labels "A") rest := by
      simp only [aggPickAux, Nat.zero_add, if_neg hO2]
    rw [hNpick, hOpick]
    exact aggPickAux_add_A_le labels hn rest (labelCounterGet labels "A")
      hA (fun r h => hF r (List.mem_cons_of_mem _ h))
      (htail.imp (fun h => le_of_lt h))
      (by omega)

/-- Witness for the amended C8 at a concrete input: population `[B]` with
the well-formed table `[{A: 90%}, {B: 70%}]`; both with and without the
extra `A` subscription the aggregate is defined, and the new label is at
least as good. -/
theorem claim_C8_amended_witness :
    ∃ outN outO,
      getEnergyLabelOfTargetedSubscriptions ["A", "B"]
        [⟨"A", 90⟩, ⟨"B", 70⟩] = .ok outN ∧
      getEnergyLabelOfTargetedSubscriptions ["B"]
        [⟨"A", 90⟩, ⟨"B", 70⟩] = .ok outO ∧
      outN.label ≤ outO.label :=
  claim_C8_amended ["B"] (by simp) 90 [⟨"B", 70⟩]
    (by
      have h1 : ("A" : String) < "B" := by
        rw [String.lt_iff_toList_lt]
        decide
      simp only [List.map_cons, List.map_nil]
      exact List.Pairwise.cons
        (by
          intro b hb
          simp only [List.mem_singleton] at hb
          subst hb
          exact h1)
        (List.Pairwise.cons (by intro b hb; exact absurd hb (by simp))
          List.Pairwise.nil))
    (by
      intro r hr
      rcases List.mem_cons.mp hr with h | h
      · subst h
        rw [String.le_iff_toList_le]
        decide
      · rcases List.mem_singleton.mp h with h
        subst h
        rw [String.le_iff_toList_le]
        decide)
